import Mathlib

/-!
Shallow embedding of the claude-memory scan/merge core.

The definitions below are translated from the repository's TypeScript
sources:

* the data model (`ProjectInfo`, `GlobalContext`, ...) from
  `src/types/index.ts`;
* the Context Store (`loadExistingContext`, `migrateContext`,
  `generateGlobalContext`, `writeGlobalContext`) from
  `src/scanner/contextGenerator.ts`;
* the Staleness Evaluator (`analyzeProjectStaleness`,
  `detectStaleProjects`) from `src/scanner/stalenessDetector.ts`;
* the Project Detector (`findProjectRoots`) and the tech-stack
  heuristics (`detectTechStack`) from `src/scanner/projectScanner.ts`;
* the scan command orchestration (quick merge, empty-result guard,
  `loadContext`) from `src/cli.ts`.

Modelling conventions:

* ISO timestamp strings are modelled as milliseconds since the epoch
  (`Nat`); JavaScript `Date` comparisons and `Math.floor` arithmetic
  become `Nat`/`Int` comparisons and `Int.fdiv`.
* Live filesystem and git state consulted by the staleness detector is
  an explicit environment of oracles (`Env`).
* The memory directory `~/.claude-memory` is an explicit record of the
  five files the Context Store touches (`FS`); `JSON.stringify` of a
  snapshot is modelled by the `FileData.json` constructor, and
  `JSON.parse` by `parseJsonFile`, with an explicit `corrupt`
  constructor for on-disk data that does not parse back.
-/

namespace ClaudeMemory

/-- Primary language enumeration from `ProjectInfo.language`
(src/types/index.ts). -/
inductive Language where
  | typescript
  | javascript
  | python
  | rust
  | go
  | other
deriving DecidableEq

/-- `ProjectInsight.type` enumeration (src/types/index.ts). -/
inductive InsightType where
  | pattern
  | convention
  | architecture
  | notable
  | todo
deriving DecidableEq

/-- Per-project extracted insight (src/types/index.ts `ProjectInsight`).
`discoveredAt` is an ISO timestamp, modelled in milliseconds. -/
structure ProjectInsight where
  type : InsightType
  title : String
  description : String
  source : Option String
  discoveredAt : Nat
deriving DecidableEq

/-- The `hasFiles` record of `ProjectInfo` (src/types/index.ts). -/
structure HasFiles where
  claudeMd : Bool
  readme : Bool
  packageJson : Bool
  gitignore : Bool
deriving DecidableEq

/-- One project record (src/types/index.ts `ProjectInfo`). -/
structure ProjectInfo where
  path : String
  name : String
  description : String
  techStack : List String
  language : Language
  lastActivity : Nat
  currentBranch : String
  isDirty : Bool
  hasFiles : HasFiles
  insights : List ProjectInsight
  lastScanned : Nat
deriving DecidableEq

/-- Cross-project durable insight (src/types/index.ts `GlobalInsight`). -/
structure GlobalInsight where
  content : String
  relatedProjects : List String
  discoveredAt : Nat
deriving DecidableEq

/-- An example inside a `UserPattern` (src/types/index.ts). -/
structure PatternExample where
  project : String
  file : String
  snippet : Option String
deriving DecidableEq

/-- Reserved durable user pattern (src/types/index.ts `UserPattern`). -/
structure UserPattern where
  name : String
  description : String
  examples : List PatternExample
deriving DecidableEq

/-- The whole persisted snapshot (src/types/index.ts `GlobalContext`).
`excludedProjects` is declared optional in the TypeScript interface
(`excludedProjects?: string[]`), hence the `Option`. -/
structure GlobalContext where
  schemaVersion : Nat
  lastUpdated : Nat
  projects : List ProjectInfo
  insights : List GlobalInsight
  userPatterns : List UserPattern
  excludedProjects : Option (List String)
deriving DecidableEq

/-- src/types/index.ts: `export const SCHEMA_VERSION = 1`. -/
def SCHEMA_VERSION : Nat := 1

/-- Contents of one file in the `~/.claude-memory` directory.
`json c` stands for `JSON.stringify(c, null, 2)` of a snapshot;
`corrupt` stands for bytes that `JSON.parse` rejects (used to model
mid-write corruption); `md c` abstracts the markdown rendering
`formatGlobalContextMarkdown(c)` — its exact text is irrelevant to the
store's logic, only that it is not a parseable context object. -/
inductive FileData where
  | json (c : GlobalContext)
  | corrupt
  | md (c : GlobalContext)
deriving DecidableEq

/-- The five files of the memory directory that the Context Store
touches: `context.json`, `context.json.bak`, `context.json.tmp`,
`global-context.md`, `global-context.md.tmp`. `none` = file absent. -/
structure FS where
  contextJson : Option FileData
  contextJsonBak : Option FileData
  contextJsonTmp : Option FileData
  globalMd : Option FileData
  globalMdTmp : Option FileData
deriving DecidableEq

/-- An empty memory directory. -/
def FS.empty : FS := ⟨none, none, none, none, none⟩

/-- `JSON.parse(readFileSync(...))` on a file: a serialized snapshot
parses back to itself; corrupt data and the markdown rendering do not
parse as a context object (any parse/shape failure is an exception in
the source, modelled as `none`). -/
def parseJsonFile : Option FileData → Option GlobalContext
  | some (FileData.json c) => some c
  | _ => none

/-- src/scanner/contextGenerator.ts `migrateContext`: data with
`schemaVersion` below 1 (v0 wrote no version field, read back as 0 via
`|| 0`) is rebuilt at the current version with `excludedProjects: []`;
data already at the current version is returned unchanged.  The `|| []`
fallbacks on `projects`/`insights`/`userPatterns` in the source guard
fields absent from v0 JSON, which the record type always supplies. -/
def migrateContext (data : GlobalContext) : GlobalContext :=
  let version := data.schemaVersion
  if version < 1 then
    { schemaVersion := SCHEMA_VERSION
      lastUpdated := data.lastUpdated
      projects := data.projects
      insights := data.insights
      userPatterns := data.userPatterns
      excludedProjects := some [] }
  else
    data

/-- src/scanner/contextGenerator.ts `loadExistingContext`: missing file
or unparseable contents yield `null`; otherwise the parsed data is
migrated forward. -/
def loadExistingContext (fs : FS) : Option GlobalContext :=
  match fs.contextJson with
  | none => none
  | some d =>
    match parseJsonFile (some d) with
    | some data => some (migrateContext data)
    | none => none

/-- src/scanner/contextGenerator.ts `generateGlobalContext`: the full
merge.  `now` stands for `new Date().toISOString()` at the call.  The
fresh project list wholesale replaces `projects`; durable fields are
carried over from the loaded prior snapshot via `existing?.field || []`. -/
def generateGlobalContext (now : Nat) (projects : List ProjectInfo) (fs : FS) : GlobalContext :=
  let existing := loadExistingContext fs
  { schemaVersion := SCHEMA_VERSION
    lastUpdated := now
    projects := projects
    insights := match existing with | some e => e.insights | none => []
    userPatterns := match existing with | some e => e.userPatterns | none => []
    excludedProjects := some (match existing with
      | some e => e.excludedProjects.getD []
      | none => []) }

/-- Failure raised by `writeGlobalContext`'s verification step:
either the temp file does not parse back at all, or it parses to a
different project count than the in-memory snapshot. -/
inductive WriteErr where
  | parseFailure
  | verifyMismatch (expected got : Nat)
deriving DecidableEq

/-- The catch block of `writeGlobalContext`: delete both temp files
(`unlinkSync` guarded by `existsSync`). -/
def cleanupTemps (fs : FS) : FS :=
  { fs with contextJsonTmp := none, globalMdTmp := none }

/-- src/scanner/contextGenerator.ts `writeGlobalContext`: backup the
existing `context.json` to `.bak`, write the serialized snapshot and
the markdown rendering to temp files, parse the JSON temp file back and
verify the project count, then atomically rename both temp files over
the real targets.  On verification failure the temp files are deleted,
the error is re-raised, and no rename happens.  `diskFault` injects
possible corruption of the JSON temp file as it lands on disk (the
failure the verification step exists to catch); an honest disk is
`diskFault = id`.  Returns the resulting directory state and the error
propagated to the caller, if any. -/
def writeGlobalContext (diskFault : FileData → FileData) (context : GlobalContext) (fs : FS) :
    FS × Option WriteErr :=
  let fs1 := if fs.contextJson.isSome then { fs with contextJsonBak := fs.contextJson } else fs
  let fs2 := { fs1 with contextJsonTmp := some (diskFault (FileData.json context)) }
  let fs3 := { fs2 with globalMdTmp := some (FileData.md context) }
  match parseJsonFile fs3.contextJsonTmp with
  | none => (cleanupTemps fs3, some WriteErr.parseFailure)
  | some verification =>
    if verification.projects.length ≠ context.projects.length then
      (cleanupTemps fs3,
       some (WriteErr.verifyMismatch context.projects.length verification.projects.length))
    else
      let fs4 := { fs3 with contextJson := fs3.contextJsonTmp, contextJsonTmp := none }
      ({ fs4 with globalMd := fs4.globalMdTmp, globalMdTmp := none }, none)

/-- src/cli.ts `loadContext`: raw parse of `context.json`, with no
schema migration (unlike `loadExistingContext`). -/
def loadContext (fs : FS) : Option GlobalContext :=
  match fs.contextJson with
  | none => none
  | some d => parseJsonFile (some d)

/-- Live state the Staleness Evaluator observes, as oracles:
`now` is the clock; `latestCommit p` is the commit timestamp produced
by `git log -1 --format=%cI` in project `p` (`none` covers a missing
`.git` directory, an empty log, and every git failure, all of which
make `hasNewCommits` return false); `keyFileMtime p f` is the mtime of
key file `f` under `p` (`none` = file absent or stat error). -/
structure Env where
  now : Nat
  latestCommit : String → Option Nat
  keyFileMtime : String → String → Option Nat

/-- src/scanner/stalenessDetector.ts `hasNewCommits`: true exactly when
the latest commit timestamp is strictly newer than `lastScanned`. -/
def hasNewCommits (env : Env) (projectPath : String) (lastScanned : Nat) : Bool :=
  match env.latestCommit projectPath with
  | some commitTime => decide (lastScanned < commitTime)
  | none => false

/-- The fixed key-file list of `hasModifiedFiles`
(src/scanner/stalenessDetector.ts). -/
def keyFiles : List String :=
  ["package.json", "CLAUDE.md", "README.md", "Cargo.toml", "pyproject.toml", "go.mod"]

/-- src/scanner/stalenessDetector.ts `hasModifiedFiles`: true when any
key file exists with an mtime strictly newer than `lastScanned`. -/
def hasModifiedFiles (env : Env) (projectPath : String) (lastScanned : Nat) : Bool :=
  keyFiles.any fun file =>
    match env.keyFileMtime projectPath file with
    | some mtime => decide (lastScanned < mtime)
    | none => false

/-- `StaleProject.reason` enumeration
(src/scanner/stalenessDetector.ts). -/
inductive StaleReason where
  | age
  | git_activity
  | file_changed
  | never_scanned
deriving DecidableEq

/-- src/scanner/stalenessDetector.ts `StaleProject`.
`daysSinceScanned` is an `Int` because the JavaScript computation
`Math.floor((now - lastScanned) / dayMs)` can be negative. -/
structure StaleProject where
  name : String
  path : String
  daysSinceScanned : Int
  reason : StaleReason
  details : Option String
deriving DecidableEq

/-- src/scanner/stalenessDetector.ts `StalenessReport`. -/
structure StalenessReport where
  dataAgeHours : Int
  staleProjects : List StaleProject
  freshCount : Nat
  summary : String
  suggestion : Option String
deriving DecidableEq

/-- `STALENESS_THRESHOLDS.STALE` (days). -/
def STALENESS_THRESHOLDS_STALE : Int := 7

/-- `STALENESS_THRESHOLDS.CRITICAL` (days). -/
def STALENESS_THRESHOLDS_CRITICAL : Int := 14

/-- Milliseconds per day: `1000 * 60 * 60 * 24`. -/
def msPerDay : Int := 1000 * 60 * 60 * 24

/-- Milliseconds per hour: `1000 * 60 * 60`. -/
def msPerHour : Int := 1000 * 60 * 60

/-- Days elapsed since a project's `lastScanned`, as computed in
`analyzeProjectStaleness`: `Math.floor((now - lastScanned) / dayMs)`
is floored division on possibly negative input, hence `Int.fdiv`. -/
def staleDays (env : Env) (project : ProjectInfo) : Int :=
  ((env.now : Int) - (project.lastScanned : Int)).fdiv msPerDay

/-- src/scanner/stalenessDetector.ts `analyzeProjectStaleness`:
checked in order — git activity, then modified key files, then the
7-day age threshold; `none` = fresh. -/
def analyzeProjectStaleness (env : Env) (project : ProjectInfo) : Option StaleProject :=
  let daysSinceScanned := staleDays env project
  if hasNewCommits env project.path project.lastScanned then
    some { name := project.name, path := project.path,
           daysSinceScanned := daysSinceScanned,
           reason := StaleReason.git_activity,
           details := some "New commits since last scan" }
  else if hasModifiedFiles env project.path project.lastScanned then
    some { name := project.name, path := project.path,
           daysSinceScanned := daysSinceScanned,
           reason := StaleReason.file_changed,
           details := some "Key files modified since last scan" }
  else if STALENESS_THRESHOLDS_STALE ≤ daysSinceScanned then
    some { name := project.name, path := project.path,
           daysSinceScanned := daysSinceScanned,
           reason := StaleReason.age,
           details := some ("Not scanned in " ++ toString daysSinceScanned ++ " days") }
  else
    none

/-- src/scanner/stalenessDetector.ts `detectStaleProjects`: analyze
every project, sort stale ones most-stale-first (the stable
`Array.prototype.sort` with comparator `b.daysSinceScanned -
a.daysSinceScanned` is a stable descending merge sort), then build the
summary and suggestion. -/
def detectStaleProjects (env : Env) (context : GlobalContext) : StalenessReport :=
  let dataAgeHours : Int := ((env.now : Int) - (context.lastUpdated : Int)).fdiv msPerHour
  let staleProjects := context.projects.filterMap (analyzeProjectStaleness env)
  let sorted := staleProjects.mergeSort fun a b =>
    decide (b.daysSinceScanned ≤ a.daysSinceScanned)
  let freshCount := context.projects.length - sorted.length
  let summarySuggestion : String × Option String :=
    match sorted with
    | [] => ("All " ++ toString context.projects.length ++ " projects are up to date.", none)
    | [p] =>
      ("1 project needs updating: " ++ p.name ++ " (" ++ p.details.getD "undefined" ++ ")",
       some "claude-memory scan --quick")
    | _ =>
      let critical := sorted.filter fun p =>
        decide (STALENESS_THRESHOLDS_CRITICAL ≤ p.daysSinceScanned)
      if 0 < critical.length then
        ("⚠️ " ++ toString sorted.length ++ " projects need updating ("
           ++ toString critical.length ++ " critical)",
         some "claude-memory scan --quick")
      else
        (toString sorted.length ++ " projects could use a refresh",
         some "claude-memory scan --quick")
  { dataAgeHours := dataAgeHours
    staleProjects := sorted
    freshCount := freshCount
    summary := summarySuggestion.1
    suggestion := summarySuggestion.2 }

/-- A directory tree as the Project Detector sees it: plain files and
named subdirectories.  `readdirSync` returns the names of both. -/
inductive Dir where
  | node (files : List String) (subdirs : List (String × Dir))

/-- The entry list `readdirSync(dir)` of a directory. -/
def Dir.entries : Dir → List String
  | node files subdirs => files ++ subdirs.map Prod.fst

/-- The marker test of `findProjectRoots`
(src/scanner/projectScanner.ts lines 126-131): exactly these five
names, checked against the raw entry list. -/
def isProjectEntries (entries : List String) : Bool :=
  entries.contains "package.json" || entries.contains "Cargo.toml" ||
    entries.contains "pyproject.toml" || entries.contains "go.mod" ||
    entries.contains ".git"

mutual

/-- The inner `walk` of src/scanner/projectScanner.ts
`findProjectRoots`: stop beyond `maxDepth`; if the directory holds a
marker, record it and do not recurse; otherwise recurse into
subdirectories not on the ignore list.  Paths are root-relative segment
lists (`path ++ [name]` models `join(dir, entry)`); only subdirectories
pass the `statSync(...).isDirectory()` test, so plain files are never
walked. -/
def walk (ignore : List String) (maxDepth : Nat) : Dir → List String → Nat → List (List String)
  | Dir.node files subdirs, path, depth =>
    if maxDepth < depth then []
    else if isProjectEntries (files ++ subdirs.map Prod.fst) then [path]
    else walkSubdirs ignore maxDepth subdirs path depth

/-- The `for (const entry of entries)` loop of `walk`, restricted to
the directory entries. -/
def walkSubdirs (ignore : List String) (maxDepth : Nat) :
    List (String × Dir) → List String → Nat → List (List String)
  | [], _, _ => []
  | (name, sub) :: rest, path, depth =>
    (if ignore.contains name then []
     else walk ignore maxDepth sub (path ++ [name]) (depth + 1)) ++
      walkSubdirs ignore maxDepth rest path depth

end

/-- src/scanner/projectScanner.ts `findProjectRoots`: walk from the
root at depth 0. -/
def findProjectRoots (root : Dir) (maxDepth : Nat) (ignore : List String) : List (List String) :=
  walk ignore maxDepth root [] 0

/-- The merged `{...pkg.dependencies, ...pkg.devDependencies}` key set
of a parsed `package.json`. -/
structure PkgDeps where
  deps : List String
deriving DecidableEq

/-- The manifest files `detectTechStack` consults in one project
directory.  `packageJson = none`: no `package.json`; `some none`: the
file exists but `JSON.parse` throws (the catch adds nothing);
`some (some pkg)`: parsed dependencies. -/
structure ProjDir where
  packageJson : Option (Option PkgDeps)
  tsconfigJson : Bool
  cargoToml : Bool
  pyprojectToml : Bool
  requirementsTxt : Bool
  goMod : Bool
deriving DecidableEq

/-- The `{ language, techStack }` result of `detectTechStack`. -/
structure TechStackResult where
  language : Language
  techStack : List String
deriving DecidableEq

/-- src/scanner/projectScanner.ts `detectTechStack`, statement for
statement: start from `language = 'other'` and an empty stack, then
check `package.json` (TypeScript/JavaScript plus the framework table),
then `Cargo.toml`, then `pyproject.toml`/`requirements.txt`, then
`go.mod`; each matching ecosystem appends stack entries and overwrites
`language`. -/
def detectTechStack (d : ProjDir) : TechStackResult :=
  let techStack : List String := []
  let language := Language.other
  let state :=
    match d.packageJson with
    | some (some pkg) =>
      let state :=
        if pkg.deps.contains "typescript" || d.tsconfigJson then
          (Language.typescript, techStack ++ ["TypeScript"])
        else
          (Language.javascript, techStack ++ ["JavaScript"])
      let state := if pkg.deps.contains "react" then (state.1, state.2 ++ ["React"]) else state
      let state := if pkg.deps.contains "vue" then (state.1, state.2 ++ ["Vue"]) else state
      let state := if pkg.deps.contains "next" then (state.1, state.2 ++ ["Next.js"]) else state
      let state := if pkg.deps.contains "express" then (state.1, state.2 ++ ["Express"]) else state
      let state := if pkg.deps.contains "fastify" then (state.1, state.2 ++ ["Fastify"]) else state
      let state := if pkg.deps.contains "@anthropic-ai/sdk" then (state.1, state.2 ++ ["Claude SDK"]) else state
      let state := if pkg.deps.contains "@modelcontextprotocol/sdk" then (state.1, state.2 ++ ["MCP"]) else state
      state
    | _ => (language, techStack)
  let state := if d.cargoToml then (Language.rust, state.2 ++ ["Rust"]) else state
  let state :=
    if d.pyprojectToml || d.requirementsTxt then (Language.python, state.2 ++ ["Python"])
    else state
  let state := if d.goMod then (Language.go, state.2 ++ ["Go"]) else state
  { language := state.1, techStack := state.2 }

/-- The quick-mode merge block of the scan command (src/cli.ts lines
328-335): collect the rescanned paths into a set, keep every existing
record whose path is not in it, and append the fresh records; all other
snapshot fields come from the existing context via the spread, except
`lastUpdated`. -/
def quickMergeContext (now : Nat) (existingContext : GlobalContext)
    (projects : List ProjectInfo) : GlobalContext :=
  let rescannedPaths := projects.map fun p => p.path
  let unchangedProjects := existingContext.projects.filter fun p =>
    !(rescannedPaths.contains p.path)
  { existingContext with
    lastUpdated := now
    projects := unchangedProjects ++ projects }

/-- Outcome messages of the scan command action (src/cli.ts), one per
early return or final state. -/
inductive ScanMessage where
  | noContextYet
  | checkReport (report : StalenessReport)
  | allUpToDate
  | noProjectsFound
  | written
  | writeFailed (e : WriteErr)
deriving DecidableEq

/-- Tail of the scan command action (src/cli.ts lines 310-348), after
the stale-set decision: `projects` is what `scanProjects` returned for
`onlyPaths = projectsToScan`.  An empty scan result warns and leaves
the store untouched; quick mode with a stale set merges incrementally
into the rawly loaded context; otherwise a full merge; then persist. -/
def scanWithPaths (quick : Bool) (diskFault : FileData → FileData) (now : Nat)
    (fs : FS) (projectsToScan : Option (List String)) (projects : List ProjectInfo) :
    FS × ScanMessage :=
  if projects.isEmpty then (fs, ScanMessage.noProjectsFound)
  else
    let context :=
      if quick && projectsToScan.isSome then
        match loadContext fs with
        | some existingContext => quickMergeContext now existingContext projects
        | none => generateGlobalContext now projects fs
      else generateGlobalContext now projects fs
    match writeGlobalContext diskFault context fs with
    | (fsNew, none) => (fsNew, ScanMessage.written)
    | (fsNew, some e) => (fsNew, ScanMessage.writeFailed e)

/-- The scan command action (src/cli.ts lines 260-348).  `check` and
`quick` are the `--check`/`--quick` flags; `scanOracle` models
`scanProjects` as a function of the `onlyPaths` option (`none` = full
scan of the root directory).  Check mode only reports; quick mode with
an existing context and no stale projects returns early without
scanning or writing. -/
def scanAction (check quick : Bool) (env : Env)
    (scanOracle : Option (List String) → List ProjectInfo)
    (diskFault : FileData → FileData) (fs : FS) : FS × ScanMessage :=
  if check then
    match loadContext fs with
    | none => (fs, ScanMessage.noContextYet)
    | some context => (fs, ScanMessage.checkReport (detectStaleProjects env context))
  else if quick then
    match loadContext fs with
    | some existingContext =>
      let report := detectStaleProjects env existingContext
      if report.staleProjects.isEmpty then (fs, ScanMessage.allUpToDate)
      else
        let projectsToScan := some (report.staleProjects.map fun p => p.path)
        scanWithPaths quick diskFault env.now fs projectsToScan (scanOracle projectsToScan)
    | none => scanWithPaths quick diskFault env.now fs none (scanOracle none)
  else
    scanWithPaths quick diskFault env.now fs none (scanOracle none)

/-! Statement-side views and concrete fixtures used by the theorems
below. -/

/-- Durable cross-project insights of the loaded prior snapshot
(empty when no snapshot exists). -/
def priorInsights (fs : FS) : List GlobalInsight :=
  match loadExistingContext fs with
  | some e => e.insights
  | none => []

/-- Durable user patterns of the loaded prior snapshot. -/
def priorUserPatterns (fs : FS) : List UserPattern :=
  match loadExistingContext fs with
  | some e => e.userPatterns
  | none => []

/-- Durable excluded paths of the loaded prior snapshot. -/
def priorExcluded (fs : FS) : List String :=
  match loadExistingContext fs with
  | some e => e.excludedProjects.getD []
  | none => []

/-- The excluded-path content of a snapshot; an absent optional field
counts as empty, as every reader in the source treats it
(`context.excludedProjects || []`). -/
def excludedContent (c : GlobalContext) : List String :=
  c.excludedProjects.getD []

/-- Stack entries contributed by the `package.json` ecosystem alone, in
the order `detectTechStack` pushes them. -/
def pkgStack (d : ProjDir) : List String :=
  match d.packageJson with
  | some (some pkg) =>
    (if pkg.deps.contains "typescript" || d.tsconfigJson then ["TypeScript"]
     else ["JavaScript"]) ++
      (if pkg.deps.contains "react" then ["React"] else []) ++
      (if pkg.deps.contains "vue" then ["Vue"] else []) ++
      (if pkg.deps.contains "next" then ["Next.js"] else []) ++
      (if pkg.deps.contains "express" then ["Express"] else []) ++
      (if pkg.deps.contains "fastify" then ["Fastify"] else []) ++
      (if pkg.deps.contains "@anthropic-ai/sdk" then ["Claude SDK"] else []) ++
      (if pkg.deps.contains "@modelcontextprotocol/sdk" then ["MCP"] else [])
  | _ => []

/-- A minimal concrete project record for witnesses. -/
def sampleProject (name path : String) (lastScanned : Nat) : ProjectInfo :=
  { path := path
    name := name
    description := "a project"
    techStack := []
    language := Language.other
    lastActivity := 0
    currentBranch := "main"
    isDirty := false
    hasFiles := ⟨false, false, false, false⟩
    insights := []
    lastScanned := lastScanned }

/-- An environment with no git activity and no key-file modifications
anywhere, at clock `now`. -/
def quietEnv (now : Nat) : Env :=
  { now := now, latestCommit := fun _ => none, keyFileMtime := fun _ _ => none }

/-- A current-version snapshot with exactly one project. -/
def ctxOne : GlobalContext :=
  { schemaVersion := 1
    lastUpdated := 0
    projects := [sampleProject "proj" "/home/u/proj" 0]
    insights := []
    userPatterns := []
    excludedProjects := some [] }

/-- A current-version snapshot with no projects. -/
def ctxEmpty : GlobalContext :=
  { schemaVersion := 1
    lastUpdated := 0
    projects := []
    insights := []
    userPatterns := []
    excludedProjects := some [] }

/-- A memory directory already holding `ctxEmpty` as `context.json`. -/
def fsPrior : FS :=
  { FS.empty with contextJson := some (FileData.json ctxEmpty) }

/-- A legacy (pre-versioning, `schemaVersion` read back as 0) snapshot
carrying a non-empty exclusion list, as `addExclusion` in src/cli.ts
can produce on a v0 `context.json`. -/
def ctxV0 : GlobalContext :=
  { schemaVersion := 0
    lastUpdated := 0
    projects := []
    insights := []
    userPatterns := []
    excludedProjects := some ["/home/u/secret"] }

/-- Scenario snapshot for the quick-scan merge witness: projects A
(excluded), B, C. -/
def ctxABC : GlobalContext :=
  { schemaVersion := 1
    lastUpdated := 0
    projects := [sampleProject "A" "/p/A" 0, sampleProject "B" "/p/B" 0,
                 sampleProject "C" "/p/C" 0]
    insights := []
    userPatterns := []
    excludedProjects := some ["/p/A"] }

/-- The freshly rescanned record for project B. -/
def freshB : ProjectInfo := sampleProject "B" "/p/B" 1000

/-! Theorems. -/

/-- Claim C1: whenever the temp-file verification of
`writeGlobalContext` finds that the temporary file parses to a project
count different from the in-memory snapshot's, the persist aborts
before any rename, deletes both temporary files, raises the
verification error to the caller, and leaves the existing
`context.json` (and the markdown rendering) with their prior contents
unchanged. -/
theorem writeGlobalContext_verification_aborts (diskFault : FileData → FileData)
    (context : GlobalContext) (fs : FS) (bad : GlobalContext)
    (hparse : parseJsonFile (some (diskFault (FileData.json context))) = some bad)
    (hmismatch : bad.projects.length ≠ context.projects.length) :
    (writeGlobalContext diskFault context fs).2 =
      some (WriteErr.verifyMismatch context.projects.length bad.projects.length) ∧
    (writeGlobalContext diskFault context fs).1.contextJson = fs.contextJson ∧
    (writeGlobalContext diskFault context fs).1.globalMd = fs.globalMd ∧
    (writeGlobalContext diskFault context fs).1.contextJsonTmp = none ∧
    (writeGlobalContext diskFault context fs).1.globalMdTmp = none := by
  obtain ⟨cj, bak, tmp, md, mdt⟩ := fs
  cases cj <;>
    simp [writeGlobalContext, cleanupTemps, hparse, hmismatch]

/-- Claim C1 witness: a concrete snapshot with one project whose temp
write is corrupted into a zero-project file; the write reports the
mismatch and the prior `context.json` survives. -/
theorem writeGlobalContext_verification_aborts_witness :
    parseJsonFile (some ((fun _ => FileData.json ctxEmpty) (FileData.json ctxOne))) =
      some ctxEmpty ∧
    ctxEmpty.projects.length ≠ ctxOne.projects.length ∧
    (writeGlobalContext (fun _ => FileData.json ctxEmpty) ctxOne fsPrior).2 =
      some (WriteErr.verifyMismatch ctxOne.projects.length ctxEmpty.projects.length) ∧
    (writeGlobalContext (fun _ => FileData.json ctxEmpty) ctxOne fsPrior).1.contextJson =
      fsPrior.contextJson :=
  ⟨rfl, by decide,
   (writeGlobalContext_verification_aborts (fun _ => FileData.json ctxEmpty) ctxOne fsPrior
       ctxEmpty rfl (by decide)).1,
   (writeGlobalContext_verification_aborts (fun _ => FileData.json ctxEmpty) ctxOne fsPrior
       ctxEmpty rfl (by decide)).2.1⟩

/-- Claim C2 counterexample: the round trip is not the identity on
every snapshot.  A legacy snapshot (`schemaVersion` 0, as the
version-less v0 files read back) carrying a non-empty exclusion list —
reachable on disk through `addExclusion` — persists successfully, but
`loadExistingContext` migrates it and resets `excludedProjects` to
empty, so the loaded `excludedProjects` content differs from the
persisted snapshot's. -/
theorem roundTrip_drops_v0_exclusions :
    (writeGlobalContext id ctxV0 FS.empty).2 = none ∧
    excludedContent ctxV0 = ["/home/u/secret"] ∧
    (loadExistingContext (writeGlobalContext id ctxV0 FS.empty).1).map
        (fun c => excludedContent c) ≠ some (excludedContent ctxV0) := by
  refine ⟨rfl, rfl, ?_⟩
  decide

/-- Claim C2 (amended): for every snapshot at the current schema
version (`schemaVersion ≥ 1`), persisting with `writeGlobalContext` on
an honest disk and loading with `loadExistingContext` round-trips to
the identical snapshot — in particular the project count and the
`insights`/`excludedProjects` content survive. -/
theorem writeGlobalContext_roundTrip (context : GlobalContext) (fs : FS)
    (hversion : 1 ≤ context.schemaVersion) :
    (writeGlobalContext id context fs).2 = none ∧
    loadExistingContext (writeGlobalContext id context fs).1 = some context := by
  obtain ⟨cj, bak, tmp, md, mdt⟩ := fs
  have hnot : ¬ context.schemaVersion < 1 := by omega
  cases cj <;>
    simp [writeGlobalContext, loadExistingContext, parseJsonFile, migrateContext, hnot]

/-- Claim C2 witness: the one-project current-version snapshot
round-trips through an empty memory directory. -/
theorem writeGlobalContext_roundTrip_witness :
    1 ≤ ctxOne.schemaVersion ∧
    (writeGlobalContext id ctxOne FS.empty).2 = none ∧
    loadExistingContext (writeGlobalContext id ctxOne FS.empty).1 = some ctxOne :=
  ⟨by decide,
   (writeGlobalContext_roundTrip ctxOne FS.empty (by decide)).1,
   (writeGlobalContext_roundTrip ctxOne FS.empty (by decide)).2⟩

/-- Claim C3: the full merge `generateGlobalContext` returns a snapshot
whose `insights`, `userPatterns` and `excludedProjects` are exactly
those of the loaded prior snapshot (empty when none exists), while
`projects` is wholesale replaced by the new list — for every fresh
list, including the empty one. -/
theorem generateGlobalContext_preserves_durable (now : Nat)
    (projects : List ProjectInfo) (fs : FS) :
    (generateGlobalContext now projects fs).projects = projects ∧
    (generateGlobalContext now projects fs).insights = priorInsights fs ∧
    (generateGlobalContext now projects fs).userPatterns = priorUserPatterns fs ∧
    excludedContent (generateGlobalContext now projects fs) = priorExcluded fs := by
  cases h : loadExistingContext fs <;>
    simp [generateGlobalContext, priorInsights, priorUserPatterns, priorExcluded,
      excludedContent, h]

/-- Claim C4: the incremental (quick-scan) merge keeps every existing
project record whose path is not among the freshly scanned paths
verbatim, replaces exactly the rescanned ones by appending the fresh
records, and leaves `insights`, `userPatterns`, `excludedProjects`
(and the schema version) unchanged. -/
theorem quickMergeContext_spec (now : Nat) (existingContext : GlobalContext)
    (projects : List ProjectInfo) (_hne : projects ≠ []) :
    (quickMergeContext now existingContext projects).projects =
      (existingContext.projects.filter fun p =>
        !((projects.map fun q => q.path).contains p.path)) ++ projects ∧
    (quickMergeContext now existingContext projects).insights =
      existingContext.insights ∧
    (quickMergeContext now existingContext projects).userPatterns =
      existingContext.userPatterns ∧
    (quickMergeContext now existingContext projects).excludedProjects =
      existingContext.excludedProjects ∧
    (quickMergeContext now existingContext projects).schemaVersion =
      existingContext.schemaVersion :=
  ⟨rfl, rfl, rfl, rfl, rfl⟩

/-- Claim C4 witness: the spec scenario — snapshot with projects A
(excluded), B, C; a quick scan rescans B; afterwards the snapshot holds
A (untouched), C (untouched) and the refreshed B, and the exclusion
list is unaffected. -/
theorem quickMergeContext_spec_witness :
    [freshB] ≠ [] ∧
    (quickMergeContext 99 ctxABC [freshB]).projects =
      [sampleProject "A" "/p/A" 0, sampleProject "C" "/p/C" 0, freshB] ∧
    (quickMergeContext 99 ctxABC [freshB]).excludedProjects = some ["/p/A"] :=
  ⟨by decide,
   ((quickMergeContext_spec 99 ctxABC [freshB] (by decide)).1).trans (by decide),
   ((quickMergeContext_spec 99 ctxABC [freshB] (by decide)).2.2.2.1).trans (by decide)⟩

/-- Claim C5: in full-scan mode (neither `--check` nor `--quick`), when
the scan yields zero projects the orchestrator leaves the Context Store
exactly as it was — no write of any kind — and reports the
no-projects-found warning. -/
theorem scanAction_empty_full_scan_no_write (env : Env)
    (scanOracle : Option (List String) → List ProjectInfo)
    (diskFault : FileData → FileData) (fs : FS)
    (hempty : scanOracle none = []) :
    scanAction false false env scanOracle diskFault fs = (fs, ScanMessage.noProjectsFound) := by
  simp [scanAction, scanWithPaths, hempty]

/-- Claim C5 witness: an empty full scan over a store already holding a
snapshot changes nothing. -/
theorem scanAction_empty_full_scan_no_write_witness :
    (fun _ : Option (List String) => ([] : List ProjectInfo)) none = [] ∧
    scanAction false false (quietEnv 0) (fun _ => []) id fsPrior =
      (fsPrior, ScanMessage.noProjectsFound) :=
  ⟨rfl, scanAction_empty_full_scan_no_write (quietEnv 0) (fun _ => []) id fsPrior rfl⟩

/-- Claim C6: `analyzeProjectStaleness` tests the staleness reasons in
the strict priority order git activity, file changed, age, and reports
exactly the first true reason; in particular a project with both new
commits and a stale age gets reason `git_activity`, never `age`. -/
theorem analyzeProjectStaleness_priority (env : Env) (project : ProjectInfo) :
    (analyzeProjectStaleness env project).map (fun s => s.reason) =
      (if hasNewCommits env project.path project.lastScanned then
        some StaleReason.git_activity
      else if hasModifiedFiles env project.path project.lastScanned then
        some StaleReason.file_changed
      else if STALENESS_THRESHOLDS_STALE ≤ staleDays env project then
        some StaleReason.age
      else none) := by
  unfold analyzeProjectStaleness
  split_ifs <;> simp_all

/-- Claim C7: with no new commits and no key-file modifications, a
project is classified stale with reason `age` exactly when at least 7
days have elapsed since `lastScanned`. -/
theorem analyzeProjectStaleness_age_threshold (env : Env) (project : ProjectInfo)
    (hgit : hasNewCommits env project.path project.lastScanned = false)
    (hfile : hasModifiedFiles env project.path project.lastScanned = false) :
    (analyzeProjectStaleness env project).map (fun s => s.reason) =
      (if STALENESS_THRESHOLDS_STALE ≤ staleDays env project then some StaleReason.age
       else none) := by
  unfold analyzeProjectStaleness
  split_ifs with h1 h2 <;> simp_all

/-- Claim C7 witness: under a quiet environment, a project last scanned
8 days ago is stale with reason `age`, and one last scanned 6 days ago
is fresh. -/
theorem analyzeProjectStaleness_age_threshold_witness :
    hasNewCommits (quietEnv (8 * 86400000)) "/p" 0 = false ∧
    hasModifiedFiles (quietEnv (8 * 86400000)) "/p" 0 = false ∧
    (analyzeProjectStaleness (quietEnv (8 * 86400000))
        (sampleProject "p" "/p" 0)).map (fun s => s.reason) = some StaleReason.age ∧
    (analyzeProjectStaleness (quietEnv (8 * 86400000))
        (sampleProject "p" "/p" (2 * 86400000))).map (fun s => s.reason) = none :=
  ⟨rfl, rfl,
   (analyzeProjectStaleness_age_threshold (quietEnv (8 * 86400000))
       (sampleProject "p" "/p" 0) rfl rfl).trans (by decide),
   (analyzeProjectStaleness_age_threshold (quietEnv (8 * 86400000))
       (sampleProject "p" "/p" (2 * 86400000)) rfl rfl).trans (by decide)⟩

/-- Every stale record `analyzeProjectStaleness` produces carries one
of the three reasons it constructs. -/
theorem analyzeProjectStaleness_reason (env : Env) (project : ProjectInfo)
    (s : StaleProject) (h : analyzeProjectStaleness env project = some s) :
    s.reason ≠ StaleReason.never_scanned := by
  unfold analyzeProjectStaleness at h
  dsimp only at h
  split_ifs at h with h1 h2 h3
  · cases Option.some.inj h
    simp
  · cases Option.some.inj h
    simp
  · cases Option.some.inj h
    simp

/-- Claim C8: the moment `walk` enters a directory whose entries
contain a recognized marker (and the depth budget allows entering), it
returns that single directory and recurses no further — so nested
manifests below a detected project root contribute no additional
roots. -/
theorem walk_stops_at_project (ignore : List String) (maxDepth : Nat)
    (files : List String) (subdirs : List (String × Dir)) (path : List String)
    (depth : Nat)
    (hproj : isProjectEntries (files ++ subdirs.map Prod.fst) = true)
    (hdepth : depth ≤ maxDepth) :
    walk ignore maxDepth (Dir.node files subdirs) path depth = [path] := by
  rw [walk]
  simp [Nat.not_lt.mpr hdepth, hproj]

/-- Claim C8 witness: the spec scenario — a root whose only
subdirectory is a project root (a `Cargo.toml` directory) that itself
contains a further nested manifest (`package.json`); the detector
returns exactly the outer root. -/
theorem walk_stops_at_project_witness :
    isProjectEntries (["Cargo.toml"] ++
        [("inner", Dir.node ["package.json"] [])].map Prod.fst) = true ∧
    (1 : Nat) ≤ 2 ∧
    walk [] 2 (Dir.node ["Cargo.toml"] [("inner", Dir.node ["package.json"] [])])
        ["proj"] 1 = [["proj"]] ∧
    findProjectRoots
        (Dir.node [] [("proj",
          Dir.node ["Cargo.toml"] [("inner", Dir.node ["package.json"] [])])]) 2 [] =
      [["proj"]] :=
  ⟨rfl, by decide,
   walk_stops_at_project [] 2 ["Cargo.toml"] [("inner", Dir.node ["package.json"] [])]
     ["proj"] 1 rfl (by decide),
   rfl⟩

/-- A conditional stack push leaves the language component alone. -/
theorem pushIf_fst (c : Bool) (s : Language × List String) (x : String) :
    (if c then (s.1, s.2 ++ [x]) else s).1 = s.1 := by
  cases c <;> simp

/-- A conditional stack push appends its entry exactly when the
condition holds. -/
theorem pushIf_snd (c : Bool) (s : Language × List String) (x : String) :
    (if c then (s.1, s.2 ++ [x]) else s).2 = s.2 ++ (if c then [x] else []) := by
  cases c <;> simp

/-- A conditional language overwrite plus stack push: the language
component. -/
theorem setIf_fst (c : Bool) (l : Language) (s : Language × List String) (x : String) :
    (if c then (l, s.2 ++ [x]) else s).1 = if c then l else s.1 := by
  cases c <;> simp

/-- A conditional language overwrite plus stack push: the stack
component. -/
theorem setIf_snd (c : Bool) (l : Language) (s : Language × List String) (x : String) :
    (if c then (l, s.2 ++ [x]) else s).2 = s.2 ++ (if c then [x] else []) := by
  cases c <;> simp

/-- A two-way choice of state: the language component. -/
theorem chooseIf_fst (c : Bool) (a b : Language) (x y : List String) :
    (if c then (a, x) else (b, y)).1 = if c then a else b := by
  cases c <;> simp

/-- A two-way choice of state: the stack component. -/
theorem chooseIf_snd (c : Bool) (a b : Language) (x y : List String) :
    (if c then (a, x) else (b, y)).2 = if c then x else y := by
  cases c <;> simp

/-- Claim C9: on a directory with manifests of several ecosystems, the
tech-stack detector accumulates the stack entries of every ecosystem
present (`package.json` block first, then Rust, Python, Go), while the
single `language` field is decided by the last-checked matching
ecosystem — Go over Python over Rust over the TypeScript/JavaScript
choice — an explicit last-write-wins. -/
theorem detectTechStack_accumulate_lastWriteWins (d : ProjDir) :
    (detectTechStack d).techStack =
      pkgStack d ++ (if d.cargoToml then ["Rust"] else []) ++
        (if d.pyprojectToml || d.requirementsTxt then ["Python"] else []) ++
        (if d.goMod then ["Go"] else []) ∧
    (detectTechStack d).language =
      (if d.goMod then Language.go
       else if d.pyprojectToml || d.requirementsTxt then Language.python
       else if d.cargoToml then Language.rust
       else
         match d.packageJson with
         | some (some pkg) =>
           if pkg.deps.contains "typescript" || d.tsconfigJson then Language.typescript
           else Language.javascript
         | _ => Language.other) := by
  obtain ⟨pk, ts, cg, py, rq, gm⟩ := d
  rcases pk with _ | _ | pkg
  · cases cg <;> cases py <;> cases rq <;> cases gm <;>
      simp [detectTechStack, pkgStack]
  · cases cg <;> cases py <;> cases rq <;> cases gm <;>
      simp [detectTechStack, pkgStack]
  · refine ⟨?_, ?_⟩
    · simp only [detectTechStack]
      rw [setIf_snd, setIf_snd, setIf_snd, pushIf_snd, pushIf_snd, pushIf_snd,
        pushIf_snd, pushIf_snd, pushIf_snd, pushIf_snd, chooseIf_snd]
      simp [pkgStack, List.append_assoc]
    · simp only [detectTechStack]
      rw [setIf_fst, setIf_fst, setIf_fst, pushIf_fst, pushIf_fst, pushIf_fst,
        pushIf_fst, pushIf_fst, pushIf_fst, pushIf_fst, chooseIf_fst]

/-- Claim C10: the staleness report never contains the reason
`never_scanned`: every stale project reported by `detectStaleProjects`
has reason `git_activity`, `file_changed` or `age`. -/
theorem detectStaleProjects_no_never_scanned (env : Env) (context : GlobalContext) :
    ((detectStaleProjects env context).staleProjects.all fun s =>
      decide (s.reason ≠ StaleReason.never_scanned)) = true := by
  rw [List.all_eq_true]
  intro s hs
  simp only [detectStaleProjects, List.mem_mergeSort, List.mem_filterMap] at hs
  obtain ⟨p, _, hp⟩ := hs
  simpa using analyzeProjectStaleness_reason env p s hp

end ClaudeMemory
